import Mathlib

/-!
Shallow embedding of the FreelanceBountyPlatform Soroban contract
(src/contracts/bounty_board/src/lib.rs) and proofs about its bounty
escrow state machine, developer registry and rating arithmetic.

Modelling conventions:
* Addresses are modelled as natural numbers; soroban strings as Lean strings.
* `require_auth(x)` is abstracted away: the address argument of each
  operation is the authenticated caller (a failed authentication aborts the
  whole invocation before anything runs, so such calls never touch state).
* Contract panics (`expect`, `assert!`, `unwrap`, arithmetic overflow with
  the workspace's overflow checks) abort the invocation with every effect
  rolled back; an aborted invocation is modelled as `Except.error` and
  leaves the state unchanged.
* The external token client is modelled by recording each `transfer` call
  site as an `EscrowEvent`; the three call sites in the contract are the
  escrow-in of `create_bounty`, the payout of `approve_and_release` and the
  refund of `cancel_bounty`.
* Machine integers are `Nat` with explicit bounds: `u32` / `u64` additions
  and multiplications are guarded by `< 2 ^ 32` / `< 2 ^ 64` checks.
-/

namespace BountyBoard

abbrev Addr := Nat

abbrev Str := String

def U32 : Nat := 2 ^ 32

def U64 : Nat := 2 ^ 64

inductive BountyStatus where
  | Open
  | Assigned
  | Submitted
  | Completed
  | Disputed
  | Cancelled
deriving DecidableEq, Repr

structure DeveloperProfile where
  address : Addr
  skills : List Str
  bio : Str
  completed_bounties : Nat
  rating : Nat
deriving DecidableEq, Repr

structure Bounty where
  id : Nat
  company : Addr
  title : Str
  description : Str
  required_skills : List Str
  payment_amount : Int
  payment_token : Addr
  status : BountyStatus
  assigned_developer : Option Addr
  created_at : Nat
  deadline : Nat
deriving DecidableEq, Repr

/-- The contract's instance storage, one field per `DataKey` family. -/
structure ContractState where
  bountyCounter : Nat
  bounties : Nat → Option Bounty
  developers : Addr → Option DeveloperProfile
  companyBounties : Addr → List Nat
  developerBounties : Addr → List Nat

/-- Error kinds; each corresponds to a panic / failed assert in the source
(`expect("Bounty not found")` is `NotFound`, `assert!(.. == company)` is
`Unauthorized`, status asserts are `InvalidState`, missing profile is
`NotRegistered`, the assigned-developer checks are `NotAssigned`, and a
checked-arithmetic overflow is `Overflow`). -/
inductive Err where
  | NotFound
  | Unauthorized
  | InvalidState
  | NotRegistered
  | NotAssigned
  | Overflow
deriving DecidableEq, Repr

/-- One call to `token_client.transfer`, tagged with the bounty it concerns
and with which of the three call sites produced it. -/
inductive EscrowEvent where
  | escrowIn (bountyId : Nat) (company : Addr) (token : Addr) (amount : Int)
  | payDeveloper (bountyId : Nat) (developer : Addr) (token : Addr) (amount : Int)
  | refundCompany (bountyId : Nat) (company : Addr) (token : Addr) (amount : Int)
deriving DecidableEq, Repr

def initState : ContractState :=
  { bountyCounter := 0
    bounties := fun _ => none
    developers := fun _ => none
    companyBounties := fun _ => []
    developerBounties := fun _ => [] }

/-- `register_developer`: upserts a fresh profile with zero counters. -/
def register_developer (s : ContractState) (developer : Addr)
    (skills : List Str) (bio : Str) : ContractState :=
  let profile : DeveloperProfile :=
    { address := developer, skills := skills, bio := bio
      completed_bounties := 0, rating := 0 }
  { s with developers := fun a => if a = developer then some profile else s.developers a }

/-- `update_skills`: `unwrap` on a missing profile aborts (`NotRegistered`). -/
def update_skills (s : ContractState) (developer : Addr)
    (skills : List Str) : Except Err ContractState :=
  match s.developers developer with
  | none => Except.error Err.NotRegistered
  | some profile =>
      Except.ok { s with developers := (fun a =>
        if a = developer then some { profile with skills := skills } else s.developers a) }

/-- `get_developer`: pure read. -/
def get_developer (s : ContractState) (developer : Addr) : Option DeveloperProfile :=
  s.developers developer

/-- `create_bounty`: escrow transfer company → contract, counter bump,
record persisted `Open` / unassigned, id appended to the company index. -/
def create_bounty (s : ContractState) (company : Addr)
    (title description : Str) (required_skills : List Str)
    (payment_amount : Int) (payment_token : Addr) (deadline : Nat)
    (now : Nat) : Except Err (ContractState × Nat × List EscrowEvent) :=
  let bounty_id := s.bountyCounter + 1
  if bounty_id < U64 then
    let bounty : Bounty :=
      { id := bounty_id, company := company, title := title
        description := description, required_skills := required_skills
        payment_amount := payment_amount, payment_token := payment_token
        status := BountyStatus.Open, assigned_developer := none
        created_at := now, deadline := deadline }
    Except.ok
      ({ s with
          bountyCounter := bounty_id
          bounties := (fun i => if i = bounty_id then some bounty else s.bounties i)
          companyBounties := (fun a =>
            if a = company then s.companyBounties company ++ [bounty_id]
            else s.companyBounties a) },
        bounty_id,
        [EscrowEvent.escrowIn bounty_id company payment_token payment_amount])
  else Except.error Err.Overflow

/-- `assign_bounty`: requires an `Open` bounty and a registered developer. -/
def assign_bounty (s : ContractState) (bounty_id : Nat)
    (developer : Addr) : Except Err ContractState :=
  match s.bounties bounty_id with
  | none => Except.error Err.NotFound
  | some bounty =>
      if bounty.status = BountyStatus.Open then
        match s.developers developer with
        | none => Except.error Err.NotRegistered
        | some _ =>
            let bounty2 := { bounty with
              status := BountyStatus.Assigned
              assigned_developer := some developer }
            Except.ok { s with
              bounties := (fun i => if i = bounty_id then some bounty2 else s.bounties i)
              developerBounties := (fun a =>
                if a = developer then s.developerBounties developer ++ [bounty_id]
                else s.developerBounties a) }
      else Except.error Err.InvalidState

/-- `submit_work`: the assigned-developer check runs before the status check,
exactly as in the source. -/
def submit_work (s : ContractState) (bounty_id : Nat)
    (developer : Addr) : Except Err ContractState :=
  match s.bounties bounty_id with
  | none => Except.error Err.NotFound
  | some bounty =>
      match bounty.assigned_developer with
      | some addr =>
          if addr = developer then
            if bounty.status = BountyStatus.Assigned then
              Except.ok { s with bounties := (fun i =>
                if i = bounty_id then some { bounty with status := BountyStatus.Submitted }
                else s.bounties i) }
            else Except.error Err.InvalidState
          else Except.error Err.NotAssigned
      | none => Except.error Err.NotAssigned

/-- `approve_and_release`: company check, `Submitted` check, payout transfer
contract → developer, status `Completed`, `completed_bounties += 1` (checked
`u32` increment). -/
def approve_and_release (s : ContractState) (bounty_id : Nat)
    (company : Addr) : Except Err (ContractState × List EscrowEvent) :=
  match s.bounties bounty_id with
  | none => Except.error Err.NotFound
  | some bounty =>
      if bounty.company = company then
        if bounty.status = BountyStatus.Submitted then
          match bounty.assigned_developer with
          | none => Except.error Err.NotAssigned
          | some developer =>
              match s.developers developer with
              | none => Except.error Err.NotRegistered
              | some dev_profile =>
                  if dev_profile.completed_bounties + 1 < U32 then
                    let bounty2 := { bounty with status := BountyStatus.Completed }
                    let profile2 := { dev_profile with
                      completed_bounties := dev_profile.completed_bounties + 1 }
                    Except.ok
                      ({ s with
                          bounties := (fun i =>
                            if i = bounty_id then some bounty2 else s.bounties i)
                          developers := (fun a =>
                            if a = developer then some profile2 else s.developers a) },
                        [EscrowEvent.payDeveloper bounty_id developer
                          bounty.payment_token bounty.payment_amount])
                  else Except.error Err.Overflow
        else Except.error Err.InvalidState
      else Except.error Err.Unauthorized

/-- `dispute_bounty`: only the authorization check — the source has no
status check, so any existing bounty can be disputed by its company or
assigned developer. -/
def dispute_bounty (s : ContractState) (bounty_id : Nat)
    (caller : Addr) : Except Err ContractState :=
  match s.bounties bounty_id with
  | none => Except.error Err.NotFound
  | some bounty =>
      if bounty.company = caller ∨ bounty.assigned_developer = some caller then
        Except.ok { s with bounties := (fun i =>
          if i = bounty_id then some { bounty with status := BountyStatus.Disputed }
          else s.bounties i) }
      else Except.error Err.Unauthorized

/-- `cancel_bounty`: company check, `Open` check, refund transfer
contract → company, status `Cancelled`. -/
def cancel_bounty (s : ContractState) (bounty_id : Nat)
    (company : Addr) : Except Err (ContractState × List EscrowEvent) :=
  match s.bounties bounty_id with
  | none => Except.error Err.NotFound
  | some bounty =>
      if bounty.company = company then
        if bounty.status = BountyStatus.Open then
          Except.ok
            ({ s with bounties := (fun i =>
                if i = bounty_id then some { bounty with status := BountyStatus.Cancelled }
                else s.bounties i) },
              [EscrowEvent.refundCompany bounty_id company
                bounty.payment_token bounty.payment_amount])
        else Except.error Err.InvalidState
      else Except.error Err.Unauthorized

/-- `get_bounty`: pure read. -/
def get_bounty (s : ContractState) (bounty_id : Nat) : Option Bounty :=
  s.bounties bounty_id

/-- `get_company_bounties`: pure read, defaults to the empty list. -/
def get_company_bounties (s : ContractState) (company : Addr) : List Nat :=
  s.companyBounties company

/-- `get_developer_bounties`: pure read, defaults to the empty list. -/
def get_developer_bounties (s : ContractState) (developer : Addr) : List Nat :=
  s.developerBounties developer

/-- `rate_developer`: requires the bounty `Completed` and owned by the
caller; blends the `u32` running average (checked multiplication and
addition) when `completed_bounties > 0`, otherwise stores the raw rating. -/
def rate_developer (s : ContractState) (bounty_id : Nat) (company : Addr)
    (rating : Nat) : Except Err ContractState :=
  match s.bounties bounty_id with
  | none => Except.error Err.NotFound
  | some bounty =>
      if bounty.company = company then
        if bounty.status = BountyStatus.Completed then
          match bounty.assigned_developer with
          | none => Except.error Err.NotAssigned
          | some developer =>
              match s.developers developer with
              | none => Except.error Err.NotRegistered
              | some dev_profile =>
                  let total_ratings := dev_profile.completed_bounties
                  if total_ratings > 0 then
                    if dev_profile.rating * (total_ratings - 1) + rating < U32 then
                      Except.ok { s with developers := (fun a =>
                        if a = developer then
                          some { dev_profile with rating :=
                            (dev_profile.rating * (total_ratings - 1) + rating) / total_ratings }
                        else s.developers a) }
                    else Except.error Err.Overflow
                  else
                    Except.ok { s with developers := (fun a =>
                      if a = developer then some { dev_profile with rating := rating }
                      else s.developers a) }
        else Except.error Err.InvalidState
      else Except.error Err.Unauthorized

/-- One externally invocable operation, together with the environment data
it reads (the ledger timestamp of `create_bounty`). Pure reads are omitted:
they do not change state and invoke no transfer. -/
inductive Op where
  | registerDeveloper (developer : Addr) (skills : List Str) (bio : Str)
  | updateSkills (developer : Addr) (skills : List Str)
  | createBounty (company : Addr) (title description : Str)
      (required_skills : List Str) (payment_amount : Int)
      (payment_token : Addr) (deadline : Nat) (now : Nat)
  | assignBounty (bounty_id : Nat) (developer : Addr)
  | submitWork (bounty_id : Nat) (developer : Addr)
  | approveAndRelease (bounty_id : Nat) (company : Addr)
  | disputeBounty (bounty_id : Nat) (caller : Addr)
  | rateDeveloper (bounty_id : Nat) (company : Addr) (rating : Nat)
  | cancelBounty (bounty_id : Nat) (company : Addr)
deriving DecidableEq, Repr

/-- Run one invocation: a successful call commits its new state and its
transfer events; an aborted call (panic / failed auth in the host) has no
effect at all. -/
def applyOp (s : ContractState) (op : Op) : ContractState × List EscrowEvent :=
  match op with
  | Op.registerDeveloper d sk b => (register_developer s d sk b, [])
  | Op.updateSkills d sk =>
      match update_skills s d sk with
      | Except.ok s2 => (s2, [])
      | Except.error _ => (s, [])
  | Op.createBounty c t d sk amt tok dl now =>
      match create_bounty s c t d sk amt tok dl now with
      | Except.ok (s2, _, evs) => (s2, evs)
      | Except.error _ => (s, [])
  | Op.assignBounty id d =>
      match assign_bounty s id d with
      | Except.ok s2 => (s2, [])
      | Except.error _ => (s, [])
  | Op.submitWork id d =>
      match submit_work s id d with
      | Except.ok s2 => (s2, [])
      | Except.error _ => (s, [])
  | Op.approveAndRelease id c =>
      match approve_and_release s id c with
      | Except.ok (s2, evs) => (s2, evs)
      | Except.error _ => (s, [])
  | Op.disputeBounty id c =>
      match dispute_bounty s id c with
      | Except.ok s2 => (s2, [])
      | Except.error _ => (s, [])
  | Op.rateDeveloper id c r =>
      match rate_developer s id c r with
      | Except.ok s2 => (s2, [])
      | Except.error _ => (s, [])
  | Op.cancelBounty id c =>
      match cancel_bounty s id c with
      | Except.ok (s2, evs) => (s2, evs)
      | Except.error _ => (s, [])

/-- Fold a list of invocations over a starting state, accumulating every
transfer event that was actually executed. -/
def runFrom (s : ContractState) (evs : List EscrowEvent) :
    List Op → ContractState × List EscrowEvent
  | [] => (s, evs)
  | op :: rest =>
      let p := applyOp s op
      runFrom p.1 (evs ++ p.2) rest

/-- Run a list of invocations against a freshly deployed contract. -/
def run (ops : List Op) : ContractState × List EscrowEvent :=
  runFrom initState [] ops

/-- The escrow-in transfers executed for a given bounty id. -/
def inEvents (evs : List EscrowEvent) (id : Nat) : List EscrowEvent :=
  evs.filter fun e =>
    match e with
    | EscrowEvent.escrowIn i _ _ _ => i == id
    | _ => false

/-- The escrow-out transfers (payout or refund) executed for a given
bounty id. -/
def outEvents (evs : List EscrowEvent) (id : Nat) : List EscrowEvent :=
  evs.filter fun e =>
    match e with
    | EscrowEvent.payDeveloper i _ _ _ => i == id
    | EscrowEvent.refundCompany i _ _ _ => i == id
    | _ => false

/-- How a bounty's status constrains the escrow-out transfers executed for
it: live statuses have none; `Completed` has exactly the payout to the
assigned developer; `Cancelled` has exactly the refund to the company;
`Disputed` (reachable from every other status) has at most one, of one of
those two shapes. -/
def OutSpec (b : Bounty) (evs : List EscrowEvent) (id : Nat) : Prop :=
  match b.status with
  | BountyStatus.Open => outEvents evs id = []
  | BountyStatus.Assigned => outEvents evs id = []
  | BountyStatus.Submitted => outEvents evs id = []
  | BountyStatus.Completed =>
      match b.assigned_developer with
      | some d => outEvents evs id =
          [EscrowEvent.payDeveloper id d b.payment_token b.payment_amount]
      | none => False
  | BountyStatus.Cancelled => outEvents evs id =
      [EscrowEvent.refundCompany id b.company b.payment_token b.payment_amount]
  | BountyStatus.Disputed =>
      outEvents evs id = [] ∨
      (match b.assigned_developer with
        | some d => outEvents evs id =
            [EscrowEvent.payDeveloper id d b.payment_token b.payment_amount]
        | none => False) ∨
      outEvents evs id =
        [EscrowEvent.refundCompany id b.company b.payment_token b.payment_amount]

/-- The global escrow invariant tying each bounty record to the transfer
events executed for its id. -/
def EscrowInv (s : ContractState) (evs : List EscrowEvent) : Prop :=
  (∀ id, s.bountyCounter < id → s.bounties id = none) ∧
  (∀ id, s.bounties id = none → inEvents evs id = [] ∧ outEvents evs id = []) ∧
  (∀ id b, s.bounties id = some b →
    inEvents evs id =
      [EscrowEvent.escrowIn id b.company b.payment_token b.payment_amount] ∧
    OutSpec b evs id)

/-- Operations other than `create_bounty`, `approve_and_release` and
`cancel_bounty` contain no `token_client.transfer` call. -/
def TransferFreeOp (op : Op) : Prop :=
  match op with
  | Op.createBounty _ _ _ _ _ _ _ _ => False
  | Op.approveAndRelease _ _ => False
  | Op.cancelBounty _ _ => False
  | _ => True

/-- A demo trace driving bounty 1 to `Completed`: company 1 funds 100 of
token 7, developer 2 registers, is assigned, submits, and is paid. -/
def opsA : List Op :=
  [Op.registerDeveloper 2 [] "b",
   Op.createBounty 1 "t" "d" [] 100 7 9 5,
   Op.assignBounty 1 2,
   Op.submitWork 1 2,
   Op.approveAndRelease 1 1]

/-- The record of bounty 1 after `opsA`. -/
def bountyA : Bounty :=
  { id := 1, company := 1, title := "t", description := "d", required_skills := []
    payment_amount := 100, payment_token := 7, status := BountyStatus.Completed
    assigned_developer := some 2, created_at := 5, deadline := 9 }

/-- C8: `register_developer` followed by `get_developer` returns exactly the
given skills and bio with `completed_bounties = 0` and `rating = 0`; since
this holds for every prior state `s`, re-registering an existing profile
fully overwrites it, resetting both counters. -/
theorem register_then_get_roundtrip (s : ContractState) (developer : Addr)
    (skills : List Str) (bio : Str) :
    get_developer (register_developer s developer skills bio) developer =
      some { address := developer, skills := skills, bio := bio
             completed_bounties := 0, rating := 0 } := by
  simp [get_developer, register_developer]

/-- C9: `update_skills` on an existing profile replaces only the skills
field (bio, completed_bounties and rating are carried over from the old
profile, every other storage entry is untouched); on a missing profile it
fails with `NotRegistered` and changes nothing. -/
theorem update_skills_frame (s : ContractState) (developer : Addr)
    (skills : List Str) :
    (∀ p, s.developers developer = some p →
      ∃ s2, update_skills s developer skills = Except.ok s2 ∧
        s2.developers developer = some { p with skills := skills } ∧
        (∀ a, a ≠ developer → s2.developers a = s.developers a) ∧
        s2.bounties = s.bounties ∧ s2.bountyCounter = s.bountyCounter ∧
        s2.companyBounties = s.companyBounties ∧
        s2.developerBounties = s.developerBounties) ∧
    (s.developers developer = none →
      update_skills s developer skills = Except.error Err.NotRegistered ∧
      applyOp s (Op.updateSkills developer skills) = (s, [])) := by
  constructor
  · intro p hp
    refine ⟨{ s with developers := (fun a =>
        if a = developer then some { p with skills := skills }
        else s.developers a) }, ?_, ?_, ?_, rfl, rfl, rfl, rfl⟩
    · simp [update_skills, hp]
    · simp
    · intro a ha
      simp only []
      rw [if_neg ha]
  · intro hp
    constructor
    · simp [update_skills, hp]
    · simp [applyOp, update_skills, hp]

/-- C9 witness: updating skills of a registered developer keeps the bio. -/
theorem update_skills_frame_witness :
    Except.map (fun s2 => s2.developers 2)
        (update_skills (register_developer initState 2 [] "b") 2 ["rust"]) =
      Except.ok (some { address := 2, skills := ["rust"], bio := "b"
                        completed_bounties := 0, rating := 0 }) := by
  obtain ⟨s2, h1, h2, _⟩ :=
    (update_skills_frame (register_developer initState 2 [] "b") 2 ["rust"]).1
      { address := 2, skills := [], bio := "b", completed_bounties := 0, rating := 0 }
      (by decide)
  rw [h1]
  simp only [Except.map]
  rw [h2]

/-- C5: a successful `create_bounty` returns `counter + 1` as the id (so the
first bounty of a fresh contract gets id 1), persists the record `Open`,
unassigned, stamped with the ledger timestamp, and appends the id to the
end of the company's index. -/
theorem create_bounty_postconditions (s : ContractState) (company : Addr)
    (title description : Str) (required_skills : List Str)
    (payment_amount : Int) (payment_token : Addr) (deadline now : Nat)
    (s2 : ContractState) (id : Nat) (evs : List EscrowEvent)
    (h : create_bounty s company title description required_skills
          payment_amount payment_token deadline now = Except.ok (s2, id, evs)) :
    id = s.bountyCounter + 1 ∧
    get_bounty s2 id =
      some { id := id, company := company, title := title
             description := description, required_skills := required_skills
             payment_amount := payment_amount, payment_token := payment_token
             status := BountyStatus.Open, assigned_developer := none
             created_at := now, deadline := deadline } ∧
    get_company_bounties s2 company = get_company_bounties s company ++ [id] ∧
    s2.bountyCounter = id := by
  rw [create_bounty] at h
  split at h
  · simp only [Except.ok.injEq, Prod.mk.injEq] at h
    obtain ⟨hs, hid, _⟩ := h
    subst hid
    subst hs
    refine ⟨rfl, ?_, ?_, rfl⟩
    · simp [get_bounty]
    · simp [get_company_bounties]
  · exact absurd h (by simp)

/-- C5 witness: the first bounty of a fresh contract gets id 1 = 0 + 1. -/
theorem create_bounty_postconditions_witness :
    1 = initState.bountyCounter + 1 ∧
    get_company_bounties (run [Op.createBounty 1 "t" "d" [] 100 7 9 5]).1 1 =
      get_company_bounties initState 1 ++ [1] := by
  have h := create_bounty_postconditions initState 1 "t" "d" [] 100 7 9 5
    (run [Op.createBounty 1 "t" "d" [] 100 7 9 5]).1 1
    [EscrowEvent.escrowIn 1 1 7 100] rfl
  exact ⟨h.1, h.2.2.1⟩

/-- C4: `cancel_bounty` by the owning company on a bounty whose status is
not `Open` fails with `InvalidState`, moves no funds and leaves the state
untouched; conversely a successful cancellation implies the status was
`Open`. -/
theorem cancel_bounty_requires_open (s : ContractState) (bounty_id : Nat)
    (company : Addr) (b : Bounty)
    (hb : s.bounties bounty_id = some b) (hc : b.company = company) :
    (b.status ≠ BountyStatus.Open →
      cancel_bounty s bounty_id company = Except.error Err.InvalidState ∧
      applyOp s (Op.cancelBounty bounty_id company) = (s, [])) ∧
    (∀ s2 evs, cancel_bounty s bounty_id company = Except.ok (s2, evs) →
      b.status = BountyStatus.Open) := by
  constructor
  · intro hst
    have herr : cancel_bounty s bounty_id company = Except.error Err.InvalidState := by
      rw [cancel_bounty, hb]
      simp [hc, hst]
    exact ⟨herr, by simp [applyOp, herr]⟩
  · intro s2 evs hok
    by_contra hst
    rw [cancel_bounty, hb] at hok
    simp [hc, hst] at hok

/-- C4 witness: after create and assign, cancelling fails `InvalidState`. -/
theorem cancel_bounty_requires_open_witness :
    cancel_bounty (run (List.take 3 opsA)).1 1 1 = Except.error Err.InvalidState :=
  ((cancel_bounty_requires_open (run (List.take 3 opsA)).1 1 1
      { id := 1, company := 1, title := "t", description := "d"
        required_skills := [], payment_amount := 100, payment_token := 7
        status := BountyStatus.Assigned, assigned_developer := some 2
        created_at := 5, deadline := 9 }
      (by decide) (by decide)).1 (by decide)).1

/-- C7: `submit_work` fails `NotFound` on an unknown id; fails `NotAssigned`
whenever the caller is not the assigned developer (the assignment check runs
before the status check, and also rejects the company); fails `InvalidState`
unless the status is `Assigned`; on success only sets `status = Submitted`;
and it never executes a token transfer. -/
theorem submit_work_contract (s : ContractState) (bounty_id : Nat)
    (developer : Addr) :
    (s.bounties bounty_id = none →
      submit_work s bounty_id developer = Except.error Err.NotFound) ∧
    (∀ b, s.bounties bounty_id = some b →
      b.assigned_developer ≠ some developer →
      submit_work s bounty_id developer = Except.error Err.NotAssigned) ∧
    (∀ b, s.bounties bounty_id = some b →
      b.assigned_developer = some developer →
      b.status ≠ BountyStatus.Assigned →
      submit_work s bounty_id developer = Except.error Err.InvalidState) ∧
    (∀ b, s.bounties bounty_id = some b →
      b.assigned_developer = some developer →
      b.status = BountyStatus.Assigned →
      submit_work s bounty_id developer =
        Except.ok { s with bounties := (fun i =>
          if i = bounty_id then some { b with status := BountyStatus.Submitted }
          else s.bounties i) }) ∧
    (∀ e, submit_work s bounty_id developer = Except.error e →
      applyOp s (Op.submitWork bounty_id developer) = (s, [])) ∧
    (applyOp s (Op.submitWork bounty_id developer)).2 = [] := by
  refine ⟨?_, ?_, ?_, ?_, ?_, ?_⟩
  · intro h
    simp [submit_work, h]
  · intro b hb hnd
    simp only [submit_work, hb]
    cases hA : b.assigned_developer with
    | none => simp
    | some addr =>
        have hne : addr ≠ developer := fun he => hnd (he ▸ hA)
        simp [hne]
  · intro b hb hd hst
    simp [submit_work, hb, hd, hst]
  · intro b hb hd hst
    simp [submit_work, hb, hd, hst]
  · intro e he
    simp [applyOp, he]
  · cases hsw : submit_work s bounty_id developer <;> simp [applyOp, hsw]

/-- C7 witness: on an `Assigned` bounty, the company itself calling
`submit_work` is rejected with `NotAssigned`. -/
theorem submit_work_contract_witness :
    submit_work (run (List.take 3 opsA)).1 1 1 = Except.error Err.NotAssigned :=
  (submit_work_contract (run (List.take 3 opsA)).1 1 1).2.1
    { id := 1, company := 1, title := "t", description := "d"
      required_skills := [], payment_amount := 100, payment_token := 7
      status := BountyStatus.Assigned, assigned_developer := some 2
      created_at := 5, deadline := 9 }
    (by decide) (by decide)

/-- C6: a successful `rate_developer` with `completed_bounties = n ≥ 1`
stores `((old_rating * (n - 1)) + rating) / n` (integer division) and keeps
`completed_bounties` unchanged. -/
theorem rate_developer_running_average (s : ContractState) (bounty_id : Nat)
    (company : Addr) (rating : Nat) (b : Bounty) (d : Addr)
    (p : DeveloperProfile) (hb : s.bounties bounty_id = some b)
    (hd : b.assigned_developer = some d) (hp : s.developers d = some p)
    (hn : 1 ≤ p.completed_bounties) (s2 : ContractState)
    (h : rate_developer s bounty_id company rating = Except.ok s2) :
    get_developer s2 d =
      some { p with rating :=
        (p.rating * (p.completed_bounties - 1) + rating) / p.completed_bounties } := by
  simp only [rate_developer, hb, hd, hp] at h
  split at h
  · split at h
    · rw [if_pos (by omega)] at h
      split at h
      · simp only [Except.ok.injEq] at h
        subst h
        simp [get_developer]
      · cases h
    · cases h
  · cases h

/-- C6 witness: after `opsA` (one completed bounty, rating 0), rating 90
yields `(0 * 0 + 90) / 1 = 90` and `completed_bounties` stays 1. -/
theorem rate_developer_running_average_witness :
    get_developer (run (opsA ++ [Op.rateDeveloper 1 1 90])).1 2 =
      some { address := 2, skills := [], bio := "b"
             completed_bounties := 1, rating := 90 } :=
  rate_developer_running_average (run opsA).1 1 1 90 bountyA 2
    { address := 2, skills := [], bio := "b"
      completed_bounties := 1, rating := 0 }
    (by decide) (by decide) (by decide) (by decide)
    (run (opsA ++ [Op.rateDeveloper 1 1 90])).1 rfl

/-- C10: when the stored `completed_bounties` is 0 (reachable by
re-registering after a completion), `rate_developer` does not execute the
running-average division: it succeeds and stores the raw rating argument. -/
theorem rate_developer_zero_count (s : ContractState) (bounty_id : Nat)
    (company : Addr) (rating : Nat) (b : Bounty) (d : Addr)
    (p : DeveloperProfile) (hb : s.bounties bounty_id = some b)
    (hc : b.company = company) (hst : b.status = BountyStatus.Completed)
    (hd : b.assigned_developer = some d) (hp : s.developers d = some p)
    (h0 : p.completed_bounties = 0) :
    rate_developer s bounty_id company rating =
      Except.ok { s with developers := (fun a =>
        if a = d then some { p with rating := rating }
        else s.developers a) } := by
  simp [rate_developer, hb, hd, hp, hc, hst, h0]

/-- A trace where the developer re-registers after a completed bounty,
resetting `completed_bounties` to 0 while bounty 1 stays `Completed`. -/
def opsReset : List Op := opsA ++ [Op.registerDeveloper 2 ["s"] "b2"]

/-- C10 witness: rating after the reset succeeds and stores 55 directly. -/
theorem rate_developer_zero_count_witness :
    rate_developer (run opsReset).1 1 1 55 =
      Except.ok { (run opsReset).1 with developers := (fun a =>
        if a = 2 then some { address := 2, skills := ["s"], bio := "b2"
                             completed_bounties := 0, rating := 55 }
        else (run opsReset).1.developers a) } :=
  rate_developer_zero_count (run opsReset).1 1 1 55 bountyA 2
    { address := 2, skills := ["s"], bio := "b2"
      completed_bounties := 0, rating := 0 }
    (by decide) (by decide) (by decide) (by decide) (by decide) (by decide)

/-- The `opsA` trace followed by the company rating 1000. -/
def opsC3 : List Op := opsA ++ [Op.rateDeveloper 1 1 1000]

/-- C3 (code bug): `rate_developer` performs no range check on its rating
argument although the source itself documents the field as 0–100
(`pub rating: u32, // out of 100` and the parameter comment `// 0-100`):
rating a completed bounty with 1000 stores a rating of 1000. -/
theorem rate_developer_stores_rating_above_100 :
    ∃ p, get_developer (run opsC3).1 2 = some p ∧ 100 < p.rating :=
  ⟨{ address := 2, skills := [], bio := "b"
     completed_bounties := 1, rating := 1000 },
    by decide, by decide⟩

/-- C2 counterexample: bounty 1 is `Completed` after `opsA`, yet
`dispute_bounty` called by the company succeeds and changes its status to
`Disputed` — `dispute_bounty` has no status check, so `Completed` is not
terminal as claimed. -/
theorem dispute_succeeds_from_completed :
    Option.map Bounty.status (get_bounty (run opsA).1 1) =
      some BountyStatus.Completed ∧
    Option.map Bounty.status
        (get_bounty (run (opsA ++ [Op.disputeBounty 1 1])).1 1) =
      some BountyStatus.Disputed := by
  decide

/-- C2 (amended): on a bounty whose status is `Completed`, `Cancelled` or
`Disputed`, the operations `assign_bounty`, `submit_work`,
`approve_and_release` and `cancel_bounty` all fail; but `dispute_bounty`
checks only authorization, so the company or the assigned developer can
always move the bounty to `Disputed`, changing the status of a `Completed`
or `Cancelled` bounty. -/
theorem terminal_status_transitions (s : ContractState) (bounty_id : Nat)
    (b : Bounty) (hb : s.bounties bounty_id = some b)
    (hterm : b.status = BountyStatus.Completed ∨
      b.status = BountyStatus.Cancelled ∨ b.status = BountyStatus.Disputed) :
    (∀ dev, assign_bounty s bounty_id dev = Except.error Err.InvalidState) ∧
    (∀ dev, submit_work s bounty_id dev = Except.error Err.NotAssigned ∨
      submit_work s bounty_id dev = Except.error Err.InvalidState) ∧
    (∀ c, approve_and_release s bounty_id c = Except.error Err.Unauthorized ∨
      approve_and_release s bounty_id c = Except.error Err.InvalidState) ∧
    (∀ c, cancel_bounty s bounty_id c = Except.error Err.Unauthorized ∨
      cancel_bounty s bounty_id c = Except.error Err.InvalidState) ∧
    (∀ caller, (b.company = caller ∨ b.assigned_developer = some caller) →
      dispute_bounty s bounty_id caller =
        Except.ok { s with bounties := (fun i =>
          if i = bounty_id then some { b with status := BountyStatus.Disputed }
          else s.bounties i) }) := by
  have hopen : b.status ≠ BountyStatus.Open := by
    rcases hterm with h | h | h <;> rw [h] <;> simp
  have hassigned : b.status ≠ BountyStatus.Assigned := by
    rcases hterm with h | h | h <;> rw [h] <;> simp
  have hsubmitted : b.status ≠ BountyStatus.Submitted := by
    rcases hterm with h | h | h <;> rw [h] <;> simp
  refine ⟨?_, ?_, ?_, ?_, ?_⟩
  · intro dev
    simp [assign_bounty, hb, hopen]
  · intro dev
    simp only [submit_work, hb]
    cases hA : b.assigned_developer with
    | none => left; simp
    | some addr =>
        by_cases he : addr = dev
        · right; simp [he, hassigned]
        · left; simp [he]
  · intro c
    by_cases hc : b.company = c
    · right; simp [approve_and_release, hb, hc, hsubmitted]
    · left; simp [approve_and_release, hb, hc]
  · intro c
    by_cases hc : b.company = c
    · right; simp [cancel_bounty, hb, hc, hopen]
    · left; simp [cancel_bounty, hb, hc]
  · intro caller hauth
    simp [dispute_bounty, hb, hauth]

/-- C2 witness: on the `Completed` bounty of `opsA`, `assign_bounty` fails
`InvalidState` while the company can still dispute it. -/
theorem terminal_status_transitions_witness :
    assign_bounty (run opsA).1 1 3 = Except.error Err.InvalidState :=
  (terminal_status_transitions (run opsA).1 1 bountyA (by decide)
    (Or.inl (by decide))).1 3

theorem inEvents_append (l1 l2 : List EscrowEvent) (id : Nat) :
    inEvents (l1 ++ l2) id = inEvents l1 id ++ inEvents l2 id := by
  simp [inEvents, List.filter_append]

theorem outEvents_append (l1 l2 : List EscrowEvent) (id : Nat) :
    outEvents (l1 ++ l2) id = outEvents l1 id ++ outEvents l2 id := by
  simp [outEvents, List.filter_append]

theorem inEvents_escrowIn_self (id c t : Nat) (a : Int) :
    inEvents [EscrowEvent.escrowIn id c t a] id =
      [EscrowEvent.escrowIn id c t a] := by
  simp [inEvents]

theorem inEvents_escrowIn_ne (i id c t : Nat) (a : Int) (h : i ≠ id) :
    inEvents [EscrowEvent.escrowIn i c t a] id = [] := by
  simp [inEvents, h]

theorem inEvents_payDeveloper (i d t : Nat) (a : Int) (id : Nat) :
    inEvents [EscrowEvent.payDeveloper i d t a] id = [] := rfl

theorem inEvents_refundCompany (i c t : Nat) (a : Int) (id : Nat) :
    inEvents [EscrowEvent.refundCompany i c t a] id = [] := rfl

theorem outEvents_escrowIn (i c t : Nat) (a : Int) (id : Nat) :
    outEvents [EscrowEvent.escrowIn i c t a] id = [] := rfl

theorem outEvents_payDeveloper_self (id d t : Nat) (a : Int) :
    outEvents [EscrowEvent.payDeveloper id d t a] id =
      [EscrowEvent.payDeveloper id d t a] := by
  simp [outEvents]

theorem outEvents_payDeveloper_ne (i id d t : Nat) (a : Int) (h : i ≠ id) :
    outEvents [EscrowEvent.payDeveloper i d t a] id = [] := by
  simp [outEvents, h]

theorem outEvents_refundCompany_self (id c t : Nat) (a : Int) :
    outEvents [EscrowEvent.refundCompany id c t a] id =
      [EscrowEvent.refundCompany id c t a] := by
  simp [outEvents]

theorem outEvents_refundCompany_ne (i id c t : Nat) (a : Int) (h : i ≠ id) :
    outEvents [EscrowEvent.refundCompany i c t a] id = [] := by
  simp [outEvents, h]

/-- `OutSpec` only looks at the out-events filtered for the bounty's id. -/
theorem OutSpec_of_eq (b : Bounty) (evs evs2 : List EscrowEvent) (id : Nat)
    (he : outEvents evs2 id = outEvents evs id)
    (h : OutSpec b evs id) : OutSpec b evs2 id := by
  unfold OutSpec at h ⊢
  rw [he]
  exact h

/-- Preservation of the escrow invariant by an operation that rewrites the
record of one existing bounty (keeping company, token and amount), appends
events that contain no escrow-in and whose escrow-outs concern only that
bounty, and leaves the counter alone. -/
theorem EscrowInv_update (s s2 : ContractState) (evs newEvs : List EscrowEvent)
    (id0 : Nat) (b b2 : Bounty)
    (hb : s.bounties id0 = some b)
    (hcounter : s2.bountyCounter = s.bountyCounter)
    (hmap : s2.bounties = (fun i => if i = id0 then some b2 else s.bounties i))
    (hco : b2.company = b.company) (hto : b2.payment_token = b.payment_token)
    (ham : b2.payment_amount = b.payment_amount)
    (hinN : ∀ id, inEvents newEvs id = [])
    (houtN : ∀ id, id ≠ id0 → outEvents newEvs id = [])
    (hout : OutSpec b evs id0 → OutSpec b2 (evs ++ newEvs) id0)
    (h : EscrowInv s evs) : EscrowInv s2 (evs ++ newEvs) := by
  obtain ⟨h1, h2, h3⟩ := h
  refine ⟨?_, ?_, ?_⟩
  · intro id hid
    rw [hmap]
    by_cases hi : id = id0
    · subst hi
      have hnone := h1 id (hcounter ▸ hid)
      rw [hnone] at hb
      cases hb
    · simp only [if_neg hi]
      exact h1 id (hcounter ▸ hid)
  · intro id hid
    rw [hmap] at hid
    by_cases hi : id = id0
    · subst hi
      simp at hid
    · simp only [if_neg hi] at hid
      obtain ⟨hin, hout0⟩ := h2 id hid
      rw [inEvents_append, outEvents_append, hin, hout0, hinN id, houtN id hi]
      exact ⟨rfl, rfl⟩
  · intro id b3 hid
    rw [hmap] at hid
    by_cases hi : id = id0
    · subst hi
      simp at hid
      subst hid
      obtain ⟨hin, hout0⟩ := h3 id b hb
      constructor
      · rw [inEvents_append, hin, hinN id, List.append_nil, hco, hto, ham]
      · exact hout hout0
    · simp only [if_neg hi] at hid
      obtain ⟨hin, hout0⟩ := h3 id b3 hid
      constructor
      · rw [inEvents_append, hin, hinN id, List.append_nil]
      · refine OutSpec_of_eq b3 evs (evs ++ newEvs) id ?_ hout0
        rw [outEvents_append, houtN id hi, List.append_nil]

/-- Preservation of the escrow invariant by `create_bounty`: a fresh id one
past the counter, an `Open` record whose fields match the single escrow-in
event appended for it. -/
theorem EscrowInv_create (s s2 : ContractState) (evs : List EscrowEvent)
    (id0 : Nat) (b : Bounty)
    (hid0 : id0 = s.bountyCounter + 1)
    (hcounter : s2.bountyCounter = id0)
    (hmap : s2.bounties = (fun i => if i = id0 then some b else s.bounties i))
    (hst : b.status = BountyStatus.Open)
    (h : EscrowInv s evs) :
    EscrowInv s2
      (evs ++ [EscrowEvent.escrowIn id0 b.company b.payment_token b.payment_amount]) := by
  obtain ⟨h1, h2, h3⟩ := h
  have hfresh : s.bounties id0 = none := h1 id0 (by omega)
  obtain ⟨hin0, hout0⟩ := h2 id0 hfresh
  refine ⟨?_, ?_, ?_⟩
  · intro id hid
    rw [hcounter] at hid
    rw [hmap]
    have hi : id ≠ id0 := by omega
    simp only [if_neg hi]
    exact h1 id (by omega)
  · intro id hid
    rw [hmap] at hid
    by_cases hi : id = id0
    · subst hi
      simp at hid
    · simp only [if_neg hi] at hid
      obtain ⟨hin, hout⟩ := h2 id hid
      rw [inEvents_append, outEvents_append, hin, hout,
        inEvents_escrowIn_ne id0 id _ _ _ (Ne.symm hi), outEvents_escrowIn]
      exact ⟨rfl, rfl⟩
  · intro id b3 hid
    rw [hmap] at hid
    by_cases hi : id = id0
    · subst hi
      simp at hid
      subst hid
      constructor
      · rw [inEvents_append, hin0, inEvents_escrowIn_self, List.nil_append]
      · unfold OutSpec
        rw [hst]
        rw [outEvents_append, hout0, outEvents_escrowIn]
        rfl
    · simp only [if_neg hi] at hid
      obtain ⟨hin, hout⟩ := h3 id b3 hid
      constructor
      · rw [inEvents_append, hin, inEvents_escrowIn_ne id0 id _ _ _ (Ne.symm hi),
          List.append_nil]
      · refine OutSpec_of_eq b3 evs _ id ?_ hout
        rw [outEvents_append, outEvents_escrowIn, List.append_nil]

/-- The escrow invariant only depends on the counter and the bounty map. -/
theorem EscrowInv_same (s s2 : ContractState) (evs : List EscrowEvent)
    (hc : s2.bountyCounter = s.bountyCounter) (hbm : s2.bounties = s.bounties)
    (h : EscrowInv s evs) : EscrowInv s2 evs := by
  obtain ⟨h1, h2, h3⟩ := h
  refine ⟨?_, ?_, ?_⟩
  · intro id hid
    rw [hbm]
    exact h1 id (hc ▸ hid)
  · intro id hid
    rw [hbm] at hid
    exact h2 id hid
  · intro id b hid
    rw [hbm] at hid
    exact h3 id b hid

/-- Moving any status to `Disputed` weakens the out-event constraint. -/
theorem OutSpec_dispute (b : Bounty) (evs : List EscrowEvent) (id : Nat)
    (h : OutSpec b evs id) :
    OutSpec { b with status := BountyStatus.Disputed } evs id := by
  unfold OutSpec at h ⊢
  cases hst : b.status <;> rw [hst] at h
  case Open => exact Or.inl h
  case Assigned => exact Or.inl h
  case Submitted => exact Or.inl h
  case Completed => exact Or.inr (Or.inl h)
  case Cancelled => exact Or.inr (Or.inr h)
  case Disputed => exact h

/-- A successful `rate_developer` touches only the developers table. -/
theorem rate_developer_frame (s : ContractState) (bounty_id : Nat)
    (company : Addr) (rating : Nat) (s2 : ContractState)
    (h : rate_developer s bounty_id company rating = Except.ok s2) :
    s2.bountyCounter = s.bountyCounter ∧ s2.bounties = s.bounties := by
  rw [rate_developer] at h
  dsimp only at h
  repeat' split at h
  all_goals first
    | exact Except.noConfusion h
    | (simp only [Except.ok.injEq] at h; subst h; exact ⟨rfl, rfl⟩)

/-- A successful `update_skills` touches only the developers table. -/
theorem update_skills_only_developers (s : ContractState) (developer : Addr)
    (skills : List Str) (s2 : ContractState)
    (h : update_skills s developer skills = Except.ok s2) :
    s2.bountyCounter = s.bountyCounter ∧ s2.bounties = s.bounties := by
  rw [update_skills] at h
  split at h
  · exact Except.noConfusion h
  · simp only [Except.ok.injEq] at h
    subst h
    exact ⟨rfl, rfl⟩

/-- Completing a bounty: the single payout to the assigned developer. -/
theorem OutSpec_complete (b : Bounty) (evs : List EscrowEvent) (id d : Nat)
    (hd : b.assigned_developer = some d)
    (ho : outEvents evs id =
      [EscrowEvent.payDeveloper id d b.payment_token b.payment_amount]) :
    OutSpec { b with status := BountyStatus.Completed } evs id := by
  simp only [OutSpec, hd]
  exact ho

/-- Cancelling a bounty: the single refund to the company. -/
theorem OutSpec_cancel (b : Bounty) (evs : List EscrowEvent) (id : Nat)
    (ho : outEvents evs id =
      [EscrowEvent.refundCompany id b.company b.payment_token b.payment_amount]) :
    OutSpec { b with status := BountyStatus.Cancelled } evs id := by
  simp only [OutSpec]
  exact ho

/-- In a live status (`Open`, `Assigned`, `Submitted`) no escrow-out has
happened yet. -/
theorem OutSpec_out_nil (b : Bounty) (evs : List EscrowEvent) (id : Nat)
    (hst : b.status = BountyStatus.Open ∨ b.status = BountyStatus.Assigned ∨
      b.status = BountyStatus.Submitted)
    (h : OutSpec b evs id) : outEvents evs id = [] := by
  unfold OutSpec at h
  rcases hst with h1 | h1 | h1 <;> rw [h1] at h <;> exact h

/-- Whatever the status, `OutSpec` allows at most one escrow-out. -/
theorem OutSpec_length_le_one (b : Bounty) (evs : List EscrowEvent) (id : Nat)
    (h : OutSpec b evs id) : (outEvents evs id).length ≤ 1 := by
  unfold OutSpec at h
  cases hst : b.status <;> rw [hst] at h
  case Open => rw [h]; simp
  case Assigned => rw [h]; simp
  case Submitted => rw [h]; simp
  case Completed =>
      cases hA : b.assigned_developer <;> rw [hA] at h
      · exact h.elim
      · rw [h]; simp
  case Cancelled => rw [h]; simp
  case Disputed =>
      rcases h with h | h | h
      · rw [h]; simp
      · cases hA : b.assigned_developer <;> rw [hA] at h
        · exact h.elim
        · rw [h]; simp
      · rw [h]; simp

/-- The freshly deployed contract satisfies the escrow invariant. -/
theorem EscrowInv_init : EscrowInv initState [] := by
  refine ⟨fun id _ => rfl, fun id _ => ⟨rfl, rfl⟩, fun id b hid => ?_⟩
  exact Option.noConfusion hid

/-- Every single invocation preserves the escrow invariant. -/
theorem applyOp_EscrowInv (s : ContractState) (evs : List EscrowEvent)
    (op : Op) (h : EscrowInv s evs) :
    EscrowInv (applyOp s op).1 (evs ++ (applyOp s op).2) := by
  cases op with
  | registerDeveloper d sk bio =>
      show EscrowInv (register_developer s d sk bio) (evs ++ [])
      rw [List.append_nil]
      exact EscrowInv_same s _ evs rfl rfl h
  | updateSkills d sk =>
      simp only [applyOp]
      cases hu : update_skills s d sk with
      | error e =>
          show EscrowInv s (evs ++ [])
          rw [List.append_nil]
          exact h
      | ok s2 =>
          show EscrowInv s2 (evs ++ [])
          rw [List.append_nil]
          obtain ⟨hc, hm⟩ := update_skills_only_developers s d sk s2 hu
          exact EscrowInv_same s s2 evs hc hm h
  | rateDeveloper id0 c r =>
      simp only [applyOp]
      cases hu : rate_developer s id0 c r with
      | error e =>
          show EscrowInv s (evs ++ [])
          rw [List.append_nil]
          exact h
      | ok s2 =>
          show EscrowInv s2 (evs ++ [])
          rw [List.append_nil]
          obtain ⟨hc, hm⟩ := rate_developer_frame s id0 c r s2 hu
          exact EscrowInv_same s s2 evs hc hm h
  | createBounty c t dsc sk amt tok dl now =>
      simp only [applyOp]
      cases hcr : create_bounty s c t dsc sk amt tok dl now with
      | error e =>
          show EscrowInv s (evs ++ [])
          rw [List.append_nil]
          exact h
      | ok trip =>
          obtain ⟨s2, id0, evs2⟩ := trip
          show EscrowInv s2 (evs ++ evs2)
          rw [create_bounty] at hcr
          dsimp only at hcr
          split at hcr
          · simp only [Except.ok.injEq, Prod.mk.injEq] at hcr
            obtain ⟨hs, hid, hevs⟩ := hcr
            subst hs
            subst hid
            subst hevs
            refine EscrowInv_create s _ evs (s.bountyCounter + 1)
              { id := s.bountyCounter + 1, company := c, title := t
                description := dsc, required_skills := sk
                payment_amount := amt, payment_token := tok
                status := BountyStatus.Open, assigned_developer := none
                created_at := now, deadline := dl }
              rfl ?_ ?_ rfl h
            · rfl
            · rfl
          · exact Except.noConfusion hcr
  | assignBounty id0 dev =>
      simp only [applyOp]
      cases ha : assign_bounty s id0 dev with
      | error e =>
          show EscrowInv s (evs ++ [])
          rw [List.append_nil]
          exact h
      | ok s2 =>
          show EscrowInv s2 (evs ++ [])
          rw [assign_bounty] at ha
          split at ha
          · exact Except.noConfusion ha
          · next bounty heq =>
              split at ha
              · next hst =>
                  split at ha
                  · exact Except.noConfusion ha
                  · dsimp only at ha
                    simp only [Except.ok.injEq] at ha
                    subst ha
                    refine EscrowInv_update s _ evs [] id0 bounty
                      { bounty with status := BountyStatus.Assigned
                                    assigned_developer := some dev }
                      heq ?_ ?_ rfl rfl rfl (fun _ => rfl) (fun _ _ => rfl) ?_ h
                    · rfl
                    · rfl
                    intro ho
                    have ho2 := OutSpec_out_nil bounty evs id0 (Or.inl hst) ho
                    simp only [OutSpec]
                    rw [List.append_nil]
                    exact ho2
              · exact Except.noConfusion ha
  | submitWork id0 dev =>
      simp only [applyOp]
      cases ha : submit_work s id0 dev with
      | error e =>
          show EscrowInv s (evs ++ [])
          rw [List.append_nil]
          exact h
      | ok s2 =>
          show EscrowInv s2 (evs ++ [])
          rw [submit_work] at ha
          split at ha
          · exact Except.noConfusion ha
          · next bounty heq =>
              split at ha
              · next addr heqA =>
                  split at ha
                  · next haddr =>
                      split at ha
                      · next hst =>
                          simp only [Except.ok.injEq] at ha
                          subst ha
                          refine EscrowInv_update s _ evs [] id0 bounty
                            { bounty with status := BountyStatus.Submitted }
                            heq ?_ ?_ rfl rfl rfl (fun _ => rfl) (fun _ _ => rfl) ?_ h
                          · rfl
                          · rfl
                          intro ho
                          have ho2 := OutSpec_out_nil bounty evs id0
                            (Or.inr (Or.inl hst)) ho
                          simp only [OutSpec]
                          rw [List.append_nil]
                          exact ho2
                      · exact Except.noConfusion ha
                  · exact Except.noConfusion ha
              · exact Except.noConfusion ha
  | disputeBounty id0 caller =>
      simp only [applyOp]
      cases ha : dispute_bounty s id0 caller with
      | error e =>
          show EscrowInv s (evs ++ [])
          rw [List.append_nil]
          exact h
      | ok s2 =>
          show EscrowInv s2 (evs ++ [])
          rw [dispute_bounty] at ha
          split at ha
          · exact Except.noConfusion ha
          · next bounty heq =>
              split at ha
              · simp only [Except.ok.injEq] at ha
                subst ha
                refine EscrowInv_update s _ evs [] id0 bounty
                  { bounty with status := BountyStatus.Disputed }
                  heq ?_ ?_ rfl rfl rfl (fun _ => rfl) (fun _ _ => rfl) ?_ h
                · rfl
                · rfl
                intro ho
                exact OutSpec_of_eq _ evs _ id0 (by rw [List.append_nil])
                  (OutSpec_dispute bounty evs id0 ho)
              · exact Except.noConfusion ha
  | approveAndRelease id0 c =>
      simp only [applyOp]
      cases ha : approve_and_release s id0 c with
      | error e =>
          show EscrowInv s (evs ++ [])
          rw [List.append_nil]
          exact h
      | ok pair =>
          obtain ⟨s2, evs2⟩ := pair
          show EscrowInv s2 (evs ++ evs2)
          rw [approve_and_release] at ha
          split at ha
          · exact Except.noConfusion ha
          · next bounty heq =>
              split at ha
              · next hco =>
                  split at ha
                  · next hst =>
                      split at ha
                      · exact Except.noConfusion ha
                      · next dev heqA =>
                          split at ha
                          · exact Except.noConfusion ha
                          · next profile heqP =>
                              split at ha
                              · next hlt =>
                                  dsimp only at ha
                                  simp only [Except.ok.injEq, Prod.mk.injEq] at ha
                                  obtain ⟨hs, hevs⟩ := ha
                                  subst hs
                                  subst hevs
                                  refine EscrowInv_update s _ evs
                                    [EscrowEvent.payDeveloper id0 dev
                                      bounty.payment_token bounty.payment_amount]
                                    id0 bounty
                                    { bounty with status := BountyStatus.Completed }
                                    heq ?_ ?_ rfl rfl rfl
                                    (fun _ => rfl)
                                    (fun i hne =>
                                      outEvents_payDeveloper_ne id0 i dev _ _ (Ne.symm hne))
                                    ?_ h
                                  · rfl
                                  · rfl
                                  intro ho
                                  have ho2 := OutSpec_out_nil bounty evs id0
                                    (Or.inr (Or.inr hst)) ho
                                  apply OutSpec_complete bounty _ id0 dev heqA
                                  rw [outEvents_append, ho2, List.nil_append,
                                    outEvents_payDeveloper_self]
                              · exact Except.noConfusion ha
                  · exact Except.noConfusion ha
              · exact Except.noConfusion ha
  | cancelBounty id0 c =>
      simp only [applyOp]
      cases ha : cancel_bounty s id0 c with
      | error e =>
          show EscrowInv s (evs ++ [])
          rw [List.append_nil]
          exact h
      | ok pair =>
          obtain ⟨s2, evs2⟩ := pair
          show EscrowInv s2 (evs ++ evs2)
          rw [cancel_bounty] at ha
          split at ha
          · exact Except.noConfusion ha
          · next bounty heq =>
              split at ha
              · next hco =>
                  split at ha
                  · next hst =>
                      simp only [Except.ok.injEq, Prod.mk.injEq] at ha
                      obtain ⟨hs, hevs⟩ := ha
                      subst hs
                      subst hevs
                      refine EscrowInv_update s _ evs
                        [EscrowEvent.refundCompany id0 c
                          bounty.payment_token bounty.payment_amount]
                        id0 bounty
                        { bounty with status := BountyStatus.Cancelled }
                        heq ?_ ?_ rfl rfl rfl
                        (fun _ => rfl)
                        (fun i hne =>
                          outEvents_refundCompany_ne id0 i c _ _ (Ne.symm hne))
                        ?_ h
                      · rfl
                      · rfl
                      intro ho
                      have ho2 := OutSpec_out_nil bounty evs id0 (Or.inl hst) ho
                      apply OutSpec_cancel bounty _ id0
                      rw [outEvents_append, ho2, List.nil_append, hco,
                        outEvents_refundCompany_self]
                  · exact Except.noConfusion ha
              · exact Except.noConfusion ha

/-- The escrow invariant holds along every trace. -/
theorem runFrom_EscrowInv (ops : List Op) (s : ContractState)
    (evs : List EscrowEvent) (h : EscrowInv s evs) :
    EscrowInv (runFrom s evs ops).1 (runFrom s evs ops).2 := by
  induction ops generalizing s evs with
  | nil => exact h
  | cons op rest ih =>
      rw [runFrom]
      exact ih (applyOp s op).1 (evs ++ (applyOp s op).2)
        (applyOp_EscrowInv s evs op h)

/-- C1: along any sequence of invocations on a fresh contract, every bounty
that exists has exactly one escrow-in transfer (the one executed inside its
successful `create_bounty`, debiting its company for its `payment_amount`
of its `payment_token`), and its escrow-out transfers obey `OutSpec`: at
most one, and it is either the payout of a successful
`approve_and_release` to the assigned developer or the refund of a
successful `cancel_bounty` to the company — never both. An id with no
bounty record has no transfers at all, and no operation other than
`create_bounty`, `approve_and_release` and `cancel_bounty` ever executes a
transfer. -/
theorem escrow_funds_move_exactly_once (ops : List Op) (id : Nat) :
    (∀ b, (run ops).1.bounties id = some b →
      inEvents (run ops).2 id =
        [EscrowEvent.escrowIn id b.company b.payment_token b.payment_amount] ∧
      OutSpec b (run ops).2 id ∧
      (outEvents (run ops).2 id).length ≤ 1) ∧
    ((run ops).1.bounties id = none →
      inEvents (run ops).2 id = [] ∧ outEvents (run ops).2 id = []) ∧
    (∀ t op, TransferFreeOp op → (applyOp t op).2 = []) := by
  obtain ⟨h1, h2, h3⟩ := runFrom_EscrowInv ops initState [] EscrowInv_init
  refine ⟨?_, fun hid => h2 id hid, ?_⟩
  · intro b hb
    obtain ⟨hin, hout⟩ := h3 id b hb
    exact ⟨hin, hout, OutSpec_length_le_one b _ id hout⟩
  · intro t op hop
    cases op with
    | registerDeveloper d sk bio => rfl
    | updateSkills d sk =>
        cases hu : update_skills t d sk <;> simp [applyOp, hu]
    | assignBounty i d =>
        cases hu : assign_bounty t i d <;> simp [applyOp, hu]
    | submitWork i d =>
        cases hu : submit_work t i d <;> simp [applyOp, hu]
    | disputeBounty i c =>
        cases hu : dispute_bounty t i c <;> simp [applyOp, hu]
    | rateDeveloper i c r =>
        cases hu : rate_developer t i c r <;> simp [applyOp, hu]
    | createBounty c t2 d sk amt tok dl now => exact hop.elim
    | approveAndRelease i c => exact hop.elim
    | cancelBounty i c => exact hop.elim

/-- C1 witness: on the `opsA` trace, bounty 1 has the single escrow-in of
its creation and exactly the payout of its `approve_and_release`, and
`register_developer` executes no transfer. -/
theorem escrow_funds_move_exactly_once_witness :
    inEvents (run opsA).2 1 =
      [EscrowEvent.escrowIn 1 bountyA.company bountyA.payment_token
        bountyA.payment_amount] ∧
    OutSpec bountyA (run opsA).2 1 ∧
    (applyOp initState (Op.registerDeveloper 2 [] "b")).2 = [] :=
  ⟨((escrow_funds_move_exactly_once opsA 1).1 bountyA (by decide)).1,
   ((escrow_funds_move_exactly_once opsA 1).1 bountyA (by decide)).2.1,
   (escrow_funds_move_exactly_once opsA 1).2.2 initState
     (Op.registerDeveloper 2 [] "b") trivial⟩

end BountyBoard
